import Mathlib

/-!
Verification of the hyperparameter-optimization orchestration in
`src/modules/hyperparams/optimisers.py` of the UrbanFlow repository.

Shallow embedding conventions:
- A hyperparameter set (Python `dict`) is `Params`; an arbitrary Python value
  that may sit in the Parameter Store is `Value` (a mapping or a non-mapping
  such as a string from a corrupted store).
- The Parameter Store is an association list keyed by model identifier.
  `load_hyperparameters` / `save_hyperparameters` live in
  `modules/hyperparams/save_and_load.py`, which is not part of the sources
  here, so they are modelled from the spec (keyed records).
- A study's search (optuna, an external collaborator treated as a black box)
  is abstracted by an oracle giving, per model name, the outcome the search
  would have if run: success with a best-parameters value, a timeout, or any
  other exception.
- Effects are traced as an explicit event list: search invocations (the
  objective being exercised), log messages, and `save_hyperparameters` calls.
- The `ValueError` raised at line 108 of `optimisers.py` is `Except.error`.
-/

/-- A hyperparameter mapping (parameter name to numeric value). -/
abbrev Params := List (String × Nat)

/-- A Python value that can appear as a per-model result: a mapping (`dict`)
or a non-mapping value such as a string from a corrupted store. -/
inductive Value where
  | dict (d : Params)
  | str (s : String)
deriving DecidableEq, Repr

/-- The Parameter Store: keyed records, key = model identifier. -/
abbrev Store := List (String × Value)

/-- Trace of observable effects: search execution (the model's objective being
invoked by `study.optimize`), log messages, and store writes. -/
inductive Event where
  | searchRun (name : String)
  | logInfo (msg : String)
  | logWarning (msg : String)
  | logError (msg : String)
  | saved (name : String) (v : Value)
deriving DecidableEq, Repr

/-- Generic association-list lookup by string key. -/
def alistLoad {α : Type} (l : List (String × α)) (name : String) : Option α :=
  (l.find? (fun p => p.1 == name)).map (fun p => p.2)

/-- Generic association-list update by string key (insert or overwrite). -/
def alistSave {α : Type} (l : List (String × α)) (v : α) (name : String) :
    List (String × α) :=
  (name, v) :: l.filter (fun p => p.1 != name)

/-- Modelled from the spec: `load_hyperparameters(model_id) -> Mapping|None`
from `modules/hyperparams/save_and_load.py` (not under src/); the spec
describes the store as persisted keyed records, key = model identifier. -/
def load_hyperparameters (store : Store) (name : String) : Option Value :=
  alistLoad store name

/-- Modelled from the spec: `save_hyperparameters(params, model_id)` from
`modules/hyperparams/save_and_load.py` (not under src/); writes the keyed
record for `model_id`, overwriting any previous one. -/
def save_hyperparameters (store : Store) (params : Value) (name : String) : Store :=
  alistSave store params name

/-- Outcome the black-box optuna search would have for a model if run:
`study.optimize` finishing with best parameters, raising `TimeoutError`
through `run_with_timeout`, or raising any other exception. -/
inductive SearchOutcome where
  | success (best : Value)
  | timeout
  | failure (msg : String)
deriving DecidableEq, Repr

/-- Per-model search oracle. -/
abbrev Oracle := String → SearchOutcome

/-- `create_study(name, objective)` (optimisers.py lines 15-29): loads the
saved parameters; on a cache miss returns a fresh study plus the objective
(modelled as `true`), on a cache hit returns `(None, None)` (modelled as
`false`). -/
def create_study (store : Store) (name : String) : Bool :=
  match load_hyperparameters store name with
  | none => true
  | some _ => false

/-- `optimize_model` (optimisers.py lines 32-68): on a fresh study, runs the
search under the timeout guard and returns `(name, best_params)` on success or
`(name, None)` on `TimeoutError` or any other exception (both logged); on a
cache hit returns `(name, load_hyperparameters(name))` without searching.
The returned pair is paired with the trace of events the call produces. -/
def optimize_model (store : Store) (oracle : Oracle) (name : String) :
    (String × Option Value) × List Event :=
  if create_study store name then
    match oracle name with
    | .success best => ((name, some best), [.searchRun name])
    | .timeout =>
        ((name, none),
         [.searchRun name, .logError ("Optimization for " ++ name ++ " timed out")])
    | .failure msg =>
        ((name, none),
         [.searchRun name, .logError (name ++ " generated an exception: " ++ msg)])
  else
    ((name, load_hyperparameters store name), [])

/-- The fixed submission-ordered list of model identifiers built at
optimisers.py lines 86-91 (name component of `models_to_optimize`). -/
def models_to_optimize : List String := ["xgb", "rf", "stacking", "reg_stacking"]

/-- The `best_params` component of `optimize_model`'s result for one model. -/
def taskBest (store : Store) (oracle : Oracle) (name : String) : Option Value :=
  ((optimize_model store oracle name).1).2

/-- `executor.map` output (optimisers.py lines 93-96): the per-task result
pairs collected in task-submission order. -/
def searchResults (store : Store) (oracle : Oracle) : List (String × Option Value) :=
  models_to_optimize.map (fun n => (optimize_model store oracle n).1)

/-- Events produced by the four tasks during the thread-pool phase. -/
def searchPhaseEvents (store : Store) (oracle : Oracle) : List Event :=
  (models_to_optimize.map (fun n => (optimize_model store oracle n).2)).foldr
    (fun a acc => a ++ acc) []

/-- State threaded through the merge loop of `optimize_hyperparameters`:
the `params` dict (a value of `none` models Python `None`), the store, and
the accumulated event trace. -/
structure MergeState where
  params : List (String × Option Value)
  store : Store
  events : List Event
deriving Repr

/-- Python truth of `isinstance(v, dict)` for an optional value
(`none` models Python `None`, which is not a dict). -/
def isDict : Option Value → Bool
  | some (Value.dict _) => true
  | _ => false

/-- One iteration of the first merge loop (optimisers.py lines 99-108):
a non-null dict result is accepted and persisted, anything else falls back to
a store load; then `params[name]` is type-checked and a non-dict raises
`ValueError`. -/
def mergeStep (st : MergeState) (r : String × Option Value) :
    Except String MergeState :=
  match r with
  | (name, best) =>
    let st1 : MergeState :=
      match best with
      | some (Value.dict d) =>
          { params := alistSave st.params (some (Value.dict d)) name,
            store := save_hyperparameters st.store (Value.dict d) name,
            events := st.events ++ [Event.saved name (Value.dict d)] }
      | _ =>
          { st with
            params := alistSave st.params (load_hyperparameters st.store name) name }
    match (alistLoad st1.params name).getD none with
    | some (Value.dict _) => Except.ok st1
    | _ => Except.error ("Invalid parameters for " ++ name ++ ".")

/-- The first merge loop over the collected results, in submission order. -/
def mergeLoop (st : MergeState) : List (String × Option Value) → Except String MergeState
  | [] => Except.ok st
  | r :: rs =>
    match mergeStep st r with
    | Except.ok st' => mergeLoop st' rs
    | Except.error e => Except.error e

/-- One iteration of the second pass (optimisers.py lines 111-116): if the
name is absent or `None`, retry a store load; if still `None`, log a warning
and substitute the empty dict. -/
def ensureStep (st : MergeState) (name : String) : MergeState :=
  let st1 : MergeState :=
    match alistLoad st.params name with
    | some (some _) => st
    | _ =>
        { st with
          params := alistSave st.params (load_hyperparameters st.store name) name }
  match (alistLoad st1.params name).getD none with
  | some _ => st1
  | none =>
      { st1 with
        params := alistSave st1.params (some (Value.dict [])) name,
        events := st1.events ++
          [Event.logWarning ("No parameters found for " ++ name ++
            ". Using default parameters.")] }

/-- The second pass over the fixed list of model identifiers. -/
def ensureLoop (st : MergeState) : MergeState :=
  models_to_optimize.foldl ensureStep st

/-- `optimize_hyperparameters` (optimisers.py lines 71-121): fans the four
model tasks out (submission order preserved by `executor.map`), merges the
results with store fallback and the `ValueError` type check, runs the
ensure pass, and returns the `(xgb, rf, stacking, reg_stacking)` tuple,
paired here with the final store and the event trace. The `"KeyError"`
branch models the lookup `params[name]` and is unreachable. -/
def optimize_hyperparameters (store : Store) (oracle : Oracle) :
    Except String ((Value × Value × Value × Value) × Store × List Event) :=
  match mergeLoop ⟨[], store, searchPhaseEvents store oracle⟩
      (searchResults store oracle) with
  | Except.error e => Except.error e
  | Except.ok st0 =>
    let st1 := ensureLoop st0
    match (alistLoad st1.params "xgb").getD none,
          (alistLoad st1.params "rf").getD none,
          (alistLoad st1.params "stacking").getD none,
          (alistLoad st1.params "reg_stacking").getD none with
    | some xgb, some rf, some stacking, some reg_stacking =>
        Except.ok ((xgb, rf, stacking, reg_stacking), st1.store, st1.events)
    | _, _, _, _ => Except.error "KeyError"

/-- The value the first merge pass assigns to `params[name]`: the search
result if it is a non-null dict, otherwise the store fallback (computed
against the store as seen by that model's iteration). -/
def mergeVal (store : Store) (name : String) (best : Option Value) : Option Value :=
  match best with
  | some (Value.dict d) => some (Value.dict d)
  | _ => load_hyperparameters store name

/-- The merged per-model value of one orchestration call, as a function of
the initial store (the merge loop only writes other models' keys before
reading this one's). -/
def mergedValue (store : Store) (oracle : Oracle) (name : String) : Option Value :=
  mergeVal store name (taskBest store oracle name)

/-- The store update one merge iteration performs: a non-null dict search
result is persisted under its model name, anything else leaves the store
unchanged. -/
def applySave (s : Store) (n : String) (b : Option Value) : Store :=
  match b with
  | some (Value.dict d) => save_hyperparameters s (Value.dict d) n
  | _ => s

/-- The `save_hyperparameters` call trace of one merge iteration. -/
def saveEventOf (n : String) (b : Option Value) : List Event :=
  match b with
  | some (Value.dict d) => [Event.saved n (Value.dict d)]
  | _ => []

/-- The store state after the merge loop of one orchestration call. -/
def storeAfterMerge (store : Store) (oracle : Oracle) : Store :=
  models_to_optimize.foldl (fun s n => applySave s n (taskBest store oracle n)) store

/-- The `save_hyperparameters` call trace of the whole merge loop. -/
def savedEvents (store : Store) (oracle : Oracle) : List Event :=
  (models_to_optimize.map (fun n => saveEventOf n (taskBest store oracle n))).foldr
    (fun a acc => a ++ acc) []

/-- Whether every model's merged value is a mapping (the condition under
which the merge loop completes without raising `ValueError`). -/
def allOk (store : Store) (oracle : Oracle) : Bool :=
  models_to_optimize.all (fun n => isDict (mergedValue store oracle n))

/-- Selects the entry of the returned `(xgb, rf, stacking, reg_stacking)`
tuple belonging to a model identifier. -/
def tupleEntry (name : String) (t : Value × Value × Value × Value) : Option Value :=
  if name = "xgb" then some t.1
  else if name = "rf" then some t.2.1
  else if name = "stacking" then some t.2.2.1
  else if name = "reg_stacking" then some t.2.2.2
  else none

/-- A concrete oracle on which every search succeeds with a distinct
one-entry mapping per model. -/
def successOracle : Oracle :=
  fun n => SearchOutcome.success (Value.dict [(n, 1)])

/-- Observable state of the black-box optuna study used by
`optimize_hyperparameters_base`: whether a `KeyboardInterrupt` arrived during
`study.optimize`, and the best-so-far trial data the study exposes. -/
structure BaseStudy where
  interrupted : Bool
  best_trial_number : Nat
  best_value : Int
  best_params : Params
deriving DecidableEq, Repr

/-- `optimize_hyperparameters_base` (optimisers.py lines 124-155): runs one
study; a `KeyboardInterrupt` during the search is caught and logged; the best
trial number, value and parameters are logged; the best parameters found so
far are returned. -/
def optimize_hyperparameters_base (study : BaseStudy) : Params × List Event :=
  let ev0 := [Event.logInfo "Starting hyperparameter optimization"]
  let ev1 :=
    if study.interrupted then
      ev0 ++ [Event.logInfo "Optimization interrupted by user."]
    else ev0
  let ev2 := ev1 ++
    [Event.logInfo ("Best trial: " ++ toString study.best_trial_number),
     Event.logInfo ("Best value: " ++ toString study.best_value),
     Event.logInfo "Best hyperparameters"]
  (study.best_params, ev2)

/-! Association-list laws for the keyed store and the params dict. -/

theorem find?_filter_key_ne {α : Type} (l : List (String × α)) (n m : String)
    (h : m ≠ n) :
    (l.filter (fun p => p.1 != n)).find? (fun p => p.1 == m) =
      l.find? (fun p => p.1 == m) := by
  induction l with
  | nil => rfl
  | cons a l ih =>
    by_cases ha : a.1 = n
    · have h1 : (a.1 != n) = false := by simp [ha]
      have h2 : (a.1 == m) = false := by
        simp only [beq_eq_false_iff_ne, ne_eq, ha]
        exact fun hh => h hh.symm
      simp [List.filter_cons, h1, List.find?_cons, h2, ih]
    · have h1 : (a.1 != n) = true := by simp [ha]
      cases hm : (a.1 == m) with
      | false => simp [List.filter_cons, h1, List.find?_cons, hm, ih]
      | true => simp [List.filter_cons, h1, List.find?_cons, hm]

theorem alistLoad_save_self {α : Type} (l : List (String × α)) (v : α) (n : String) :
    alistLoad (alistSave l v n) n = some v := by
  simp [alistLoad, alistSave, List.find?_cons]

theorem alistLoad_save_ne {α : Type} (l : List (String × α)) (v : α) (n m : String)
    (h : m ≠ n) :
    alistLoad (alistSave l v n) m = alistLoad l m := by
  have hne : (n == m) = false := by
    simp only [beq_eq_false_iff_ne, ne_eq]
    exact fun hh => h hh.symm
  simp [alistLoad, alistSave, List.find?_cons, hne, find?_filter_key_ne l n m h]

theorem isDict_eq_true_iff (o : Option Value) :
    isDict o = true ↔ ∃ d, o = some (Value.dict d) := by
  cases o with
  | none => simp [isDict]
  | some v => cases v <;> simp [isDict]

/-! Characterization of the merge loop. -/

theorem mergeVal_congr (s1 s2 : Store) (n : String) (b : Option Value)
    (h : load_hyperparameters s1 n = load_hyperparameters s2 n) :
    mergeVal s1 n b = mergeVal s2 n b := by
  cases b with
  | none => simpa [mergeVal] using h
  | some v => cases v <;> simp [mergeVal, h]

theorem load_applySave_ne (s : Store) (m n : String) (b : Option Value)
    (h : n ≠ m) :
    load_hyperparameters (applySave s m b) n = load_hyperparameters s n := by
  cases b with
  | none => rfl
  | some v =>
    cases v with
    | dict d => exact alistLoad_save_ne s (Value.dict d) m n h
    | str s' => rfl

theorem mergeStep_eq (st : MergeState) (n : String) (b : Option Value) :
    mergeStep st (n, b) =
      if isDict (mergeVal st.store n b) then
        Except.ok
          { params := alistSave st.params (mergeVal st.store n b) n,
            store := applySave st.store n b,
            events := st.events ++ saveEventOf n b }
      else Except.error ("Invalid parameters for " ++ n ++ ".") := by
  cases b with
  | none =>
    simp only [mergeStep, mergeVal, applySave, saveEventOf]
    rw [alistLoad_save_self]
    cases hld : load_hyperparameters st.store n with
    | none => simp [isDict]
    | some v => cases v <;> simp [isDict]
  | some v =>
    cases v with
    | dict d =>
      simp only [mergeStep, mergeVal, applySave, saveEventOf, isDict, if_true]
      rw [alistLoad_save_self]
      rfl
    | str s =>
      simp only [mergeStep, mergeVal, applySave, saveEventOf]
      rw [alistLoad_save_self]
      cases hld : load_hyperparameters st.store n with
      | none => simp [isDict]
      | some v => cases v <;> simp [isDict]

theorem mergeLoop_ok (tb mv : String → Option Value) (names : List String) :
    ∀ (st : MergeState),
      names.Nodup →
      (∀ n ∈ names, mergeVal st.store n (tb n) = mv n) →
      (∀ n ∈ names, isDict (mv n) = true) →
      mergeLoop st (names.map (fun n => (n, tb n))) =
        Except.ok
          { params := names.foldl (fun ps n => alistSave ps (mv n) n) st.params,
            store := names.foldl (fun s n => applySave s n (tb n)) st.store,
            events := st.events ++
              (names.map (fun n => saveEventOf n (tb n))).foldr
                (fun a acc => a ++ acc) [] } := by
  induction names with
  | nil => intro st _ _ _; simp [mergeLoop]
  | cons n0 ns ih =>
    intro st hnd hcompat hdict
    have hmv0 : mergeVal st.store n0 (tb n0) = mv n0 := hcompat n0 (by simp)
    have hd0 : isDict (mv n0) = true := hdict n0 (by simp)
    have hn0 : n0 ∉ ns := (List.nodup_cons.mp hnd).1
    have hnd' : ns.Nodup := (List.nodup_cons.mp hnd).2
    simp only [List.map_cons, mergeLoop]
    rw [mergeStep_eq, hmv0, if_pos hd0]
    have hstep := ih
      ⟨alistSave st.params (mv n0) n0, applySave st.store n0 (tb n0),
        st.events ++ saveEventOf n0 (tb n0)⟩
      hnd'
      (by
        intro n hn
        have hne : n ≠ n0 := fun hh => hn0 (hh ▸ hn)
        have hload : load_hyperparameters (applySave st.store n0 (tb n0)) n =
            load_hyperparameters st.store n := load_applySave_ne st.store n0 n (tb n0) hne
        calc mergeVal (applySave st.store n0 (tb n0)) n (tb n)
            = mergeVal st.store n (tb n) := mergeVal_congr _ _ n (tb n) hload
          _ = mv n := hcompat n (List.mem_cons_of_mem _ hn))
      (fun n hn => hdict n (List.mem_cons_of_mem _ hn))
    simp only [hstep, List.foldl_cons, List.map_cons, List.foldr_cons,
      List.append_assoc]

theorem mergeLoop_error (tb mv : String → Option Value) (names : List String) :
    ∀ (st : MergeState),
      names.Nodup →
      (∀ n ∈ names, mergeVal st.store n (tb n) = mv n) →
      (∃ n ∈ names, isDict (mv n) = false) →
      ∃ e, mergeLoop st (names.map (fun n => (n, tb n))) = Except.error e := by
  induction names with
  | nil => intro st _ _ hbad; simp at hbad
  | cons n0 ns ih =>
    intro st hnd hcompat hbad
    have hmv0 : mergeVal st.store n0 (tb n0) = mv n0 := hcompat n0 (by simp)
    have hn0 : n0 ∉ ns := (List.nodup_cons.mp hnd).1
    have hnd' : ns.Nodup := (List.nodup_cons.mp hnd).2
    obtain ⟨n, hn, hbadn⟩ := hbad
    by_cases h0 : isDict (mv n0) = true
    · have hn' : n ∈ ns := by
        rcases List.mem_cons.mp hn with rfl | h
        · rw [h0] at hbadn; cases hbadn
        · exact h
      simp only [List.map_cons, mergeLoop]
      rw [mergeStep_eq, hmv0, if_pos h0]
      exact ih
        ⟨alistSave st.params (mv n0) n0, applySave st.store n0 (tb n0),
          st.events ++ saveEventOf n0 (tb n0)⟩
        hnd'
        (by
          intro m hm
          have hne : m ≠ n0 := fun hh => hn0 (hh ▸ hm)
          have hload : load_hyperparameters (applySave st.store n0 (tb n0)) m =
              load_hyperparameters st.store m := load_applySave_ne st.store n0 m (tb n0) hne
          calc mergeVal (applySave st.store n0 (tb n0)) m (tb m)
              = mergeVal st.store m (tb m) := mergeVal_congr _ _ m (tb m) hload
            _ = mv m := hcompat m (List.mem_cons_of_mem _ hm))
        ⟨n, hn', hbadn⟩
    · have h0' : ¬ isDict (mergeVal st.store n0 (tb n0)) = true := by
        rw [hmv0]; exact h0
      refine ⟨"Invalid parameters for " ++ n0 ++ ".", ?_⟩
      simp only [List.map_cons, mergeLoop]
      rw [mergeStep_eq, if_neg h0']

/-! Task-phase lemmas. -/

theorem create_study_false_of_load (store : Store) (n : String) (v : Value)
    (h : load_hyperparameters store n = some v) :
    create_study store n = false := by
  simp [create_study, h]

theorem optimize_model_fst (store : Store) (oracle : Oracle) (n : String) :
    (optimize_model store oracle n).1 = (n, taskBest store oracle n) := by
  unfold taskBest optimize_model
  by_cases h : create_study store n = true
  · simp only [if_pos h]
    cases oracle n <;> rfl
  · simp only [if_neg h]

theorem searchResults_eq (store : Store) (oracle : Oracle) :
    searchResults store oracle =
      models_to_optimize.map (fun n => (n, taskBest store oracle n)) := by
  simp [searchResults, models_to_optimize, optimize_model_fst]

theorem taskBest_cache (store : Store) (oracle : Oracle) (n : String) (v : Value)
    (h : load_hyperparameters store n = some v) :
    taskBest store oracle n = some v := by
  have hc : create_study store n = false := create_study_false_of_load store n v h
  simp [taskBest, optimize_model, hc, h]

theorem optimize_model_events_cache (store : Store) (oracle : Oracle) (n : String)
    (h : create_study store n = false) :
    (optimize_model store oracle n).2 = [] := by
  simp [optimize_model, h]

theorem searchRun_mem_optimize_model (store : Store) (oracle : Oracle)
    (m n : String) (h : Event.searchRun n ∈ (optimize_model store oracle m).2) :
    n = m ∧ create_study store m = true := by
  by_cases hc : create_study store m = true
  · refine ⟨?_, hc⟩
    simp only [optimize_model, if_pos hc] at h
    cases horc : oracle m <;> rw [horc] at h <;> simpa using h
  · simp [optimize_model, hc] at h

theorem searchRun_mem_searchPhase (store : Store) (oracle : Oracle) (n : String)
    (h : Event.searchRun n ∈ searchPhaseEvents store oracle) :
    create_study store n = true := by
  simp only [searchPhaseEvents, models_to_optimize, List.map_cons, List.map_nil,
    List.foldr_cons, List.foldr_nil, List.append_nil, List.mem_append] at h
  rcases h with h | h | h | h <;>
    (obtain ⟨rfl, hc⟩ := searchRun_mem_optimize_model _ _ _ _ h; exact hc)

theorem searchPhase_nil (store : Store) (oracle : Oracle)
    (h : ∀ n ∈ models_to_optimize, create_study store n = false) :
    searchPhaseEvents store oracle = [] := by
  have h1 := optimize_model_events_cache store oracle "xgb"
    (h "xgb" (by simp [models_to_optimize]))
  have h2 := optimize_model_events_cache store oracle "rf"
    (h "rf" (by simp [models_to_optimize]))
  have h3 := optimize_model_events_cache store oracle "stacking"
    (h "stacking" (by simp [models_to_optimize]))
  have h4 := optimize_model_events_cache store oracle "reg_stacking"
    (h "reg_stacking" (by simp [models_to_optimize]))
  simp [searchPhaseEvents, models_to_optimize, h1, h2, h3, h4]

theorem saved_mem_savedEvents (store : Store) (oracle : Oracle) (n : String)
    (d : Params) (hn : n ∈ models_to_optimize)
    (h : taskBest store oracle n = some (Value.dict d)) :
    Event.saved n (Value.dict d) ∈ savedEvents store oracle := by
  simp only [models_to_optimize, List.mem_cons, List.not_mem_nil, or_false] at hn
  rcases hn with rfl | rfl | rfl | rfl <;>
    simp [savedEvents, models_to_optimize, saveEventOf, h]

/-! Lookup after iterated keyed updates. -/

theorem alistLoad_foldl_save_not_mem {α : Type} (mv : String → α)
    (names : List String) :
    ∀ (ps : List (String × α)) (n : String), n ∉ names →
      alistLoad (names.foldl (fun acc m => alistSave acc (mv m) m) ps) n =
        alistLoad ps n := by
  induction names with
  | nil => intro ps n _; rfl
  | cons m ms ih =>
    intro ps n hn
    have h1 : n ≠ m := fun hh => hn (by simp [hh])
    have h2 : n ∉ ms := fun hh => hn (by simp [hh])
    simp only [List.foldl_cons]
    rw [ih _ n h2, alistLoad_save_ne _ _ _ _ h1]

theorem alistLoad_foldl_save_mem {α : Type} (mv : String → α)
    (names : List String) :
    ∀ (ps : List (String × α)) (n : String), names.Nodup → n ∈ names →
      alistLoad (names.foldl (fun acc m => alistSave acc (mv m) m) ps) n =
        some (mv n) := by
  induction names with
  | nil => intro ps n _ h; simp at h
  | cons m ms ih =>
    intro ps n hnd hn
    simp only [List.foldl_cons]
    rcases List.mem_cons.mp hn with rfl | h
    · have hnotin : n ∉ ms := (List.nodup_cons.mp hnd).1
      rw [alistLoad_foldl_save_not_mem mv ms _ n hnotin, alistLoad_save_self]
    · exact ih _ n (List.nodup_cons.mp hnd).2 h

theorem load_foldl_applySave_not_mem (tb : String → Option Value)
    (names : List String) :
    ∀ (s0 : Store) (n : String), n ∉ names →
      load_hyperparameters (names.foldl (fun s m => applySave s m (tb m)) s0) n =
        load_hyperparameters s0 n := by
  induction names with
  | nil => intro s0 n _; rfl
  | cons m ms ih =>
    intro s0 n hn
    have h1 : n ≠ m := fun hh => hn (by simp [hh])
    have h2 : n ∉ ms := fun hh => hn (by simp [hh])
    simp only [List.foldl_cons]
    rw [ih _ n h2, load_applySave_ne _ _ _ _ h1]

theorem load_foldl_applySave_mem (tb : String → Option Value)
    (names : List String) :
    ∀ (s0 : Store) (n : String), names.Nodup → n ∈ names →
      load_hyperparameters (names.foldl (fun s m => applySave s m (tb m)) s0) n =
        mergeVal s0 n (tb n) := by
  induction names with
  | nil => intro s0 n _ h; simp at h
  | cons m ms ih =>
    intro s0 n hnd hn
    simp only [List.foldl_cons]
    rcases List.mem_cons.mp hn with rfl | h
    · have hnotin : n ∉ ms := (List.nodup_cons.mp hnd).1
      rw [load_foldl_applySave_not_mem tb ms _ n hnotin]
      cases htb : tb n with
      | none => simp [applySave, mergeVal, htb]
      | some v =>
        cases v with
        | dict d => simp [applySave, mergeVal, htb, save_hyperparameters,
            load_hyperparameters, alistLoad_save_self]
        | str s => simp [applySave, mergeVal, htb]
    · have hnm : n ≠ m := fun hh => (List.nodup_cons.mp hnd).1 (hh ▸ h)
      rw [ih _ n (List.nodup_cons.mp hnd).2 h]
      exact mergeVal_congr _ _ n (tb n) (load_applySave_ne s0 m n (tb m) hnm)

/-! The second pass is the identity once every model has a merged dict. -/

theorem ensureStep_id (st : MergeState) (n : String) (v : Value)
    (h : alistLoad st.params n = some (some v)) : ensureStep st n = st := by
  simp [ensureStep, h]

theorem ensureLoop_id (st : MergeState)
    (h : ∀ n ∈ models_to_optimize, ∃ v, alistLoad st.params n = some (some v)) :
    ensureLoop st = st := by
  obtain ⟨v1, h1⟩ := h "xgb" (by simp [models_to_optimize])
  obtain ⟨v2, h2⟩ := h "rf" (by simp [models_to_optimize])
  obtain ⟨v3, h3⟩ := h "stacking" (by simp [models_to_optimize])
  obtain ⟨v4, h4⟩ := h "reg_stacking" (by simp [models_to_optimize])
  simp only [ensureLoop, models_to_optimize, List.foldl_cons, List.foldl_nil]
  rw [ensureStep_id st _ v1 h1, ensureStep_id st _ v2 h2,
      ensureStep_id st _ v3 h3, ensureStep_id st _ v4 h4]

/-! Whole-call characterization. -/

theorem call_of_mergeLoop_ok (store : Store) (oracle : Oracle) (stF : MergeState)
    (xv rv sv gv : Value)
    (hml : mergeLoop ⟨[], store, searchPhaseEvents store oracle⟩
        (searchResults store oracle) = Except.ok stF)
    (hx : alistLoad stF.params "xgb" = some (some xv))
    (hr : alistLoad stF.params "rf" = some (some rv))
    (hs : alistLoad stF.params "stacking" = some (some sv))
    (hg : alistLoad stF.params "reg_stacking" = some (some gv)) :
    optimize_hyperparameters store oracle =
      Except.ok ((xv, rv, sv, gv), stF.store, stF.events) := by
  have hens : ensureLoop stF = stF := ensureLoop_id stF (by
    intro n hn
    simp only [models_to_optimize, List.mem_cons, List.not_mem_nil, or_false] at hn
    rcases hn with rfl | rfl | rfl | rfl
    exacts [⟨xv, hx⟩, ⟨rv, hr⟩, ⟨sv, hs⟩, ⟨gv, hg⟩])
  unfold optimize_hyperparameters
  rw [hml]
  simp only [hens, hx, hr, hs, hg, Option.getD_some]

theorem call_ok_of_allOk (store : Store) (oracle : Oracle)
    (h : allOk store oracle = true) :
    optimize_hyperparameters store oracle =
      Except.ok
        (((mergedValue store oracle "xgb").getD (Value.dict []),
          (mergedValue store oracle "rf").getD (Value.dict []),
          (mergedValue store oracle "stacking").getD (Value.dict []),
          (mergedValue store oracle "reg_stacking").getD (Value.dict [])),
         storeAfterMerge store oracle,
         searchPhaseEvents store oracle ++ savedEvents store oracle) := by
  have hall : ∀ n ∈ models_to_optimize, isDict (mergedValue store oracle n) = true := by
    simpa [allOk, List.all_eq_true] using h
  have hnd : models_to_optimize.Nodup := by decide
  have hml := mergeLoop_ok (taskBest store oracle) (mergedValue store oracle)
    models_to_optimize ⟨[], store, searchPhaseEvents store oracle⟩ hnd
    (fun n _ => rfl) hall
  have hload : ∀ n ∈ models_to_optimize,
      alistLoad (models_to_optimize.foldl
        (fun ps n => alistSave ps (mergedValue store oracle n) n)
        ([] : List (String × Option Value))) n =
        some (mergedValue store oracle n) :=
    fun n hn => alistLoad_foldl_save_mem (mergedValue store oracle)
      models_to_optimize ([] : List (String × Option Value)) n hnd hn
  obtain ⟨dx, hx⟩ := (isDict_eq_true_iff _).mp (hall "xgb" (by simp [models_to_optimize]))
  obtain ⟨dr, hr⟩ := (isDict_eq_true_iff _).mp (hall "rf" (by simp [models_to_optimize]))
  obtain ⟨ds, hs⟩ := (isDict_eq_true_iff _).mp
    (hall "stacking" (by simp [models_to_optimize]))
  obtain ⟨dg, hg⟩ := (isDict_eq_true_iff _).mp
    (hall "reg_stacking" (by simp [models_to_optimize]))
  have hcall := call_of_mergeLoop_ok store oracle _
    (Value.dict dx) (Value.dict dr) (Value.dict ds) (Value.dict dg)
    (by rw [searchResults_eq]; exact hml)
    (by rw [hload "xgb" (by simp [models_to_optimize]), hx])
    (by rw [hload "rf" (by simp [models_to_optimize]), hr])
    (by rw [hload "stacking" (by simp [models_to_optimize]), hs])
    (by rw [hload "reg_stacking" (by simp [models_to_optimize]), hg])
  rw [hcall, hx, hr, hs, hg]
  rfl

theorem call_error_of_bad (store : Store) (oracle : Oracle) (n : String)
    (hn : n ∈ models_to_optimize)
    (hbad : isDict (mergedValue store oracle n) = false) :
    ∃ e, optimize_hyperparameters store oracle = Except.error e := by
  have hnd : models_to_optimize.Nodup := by decide
  obtain ⟨e, he⟩ := mergeLoop_error (taskBest store oracle) (mergedValue store oracle)
    models_to_optimize ⟨[], store, searchPhaseEvents store oracle⟩ hnd
    (fun m _ => rfl) ⟨n, hn, hbad⟩
  refine ⟨e, ?_⟩
  unfold optimize_hyperparameters
  rw [searchResults_eq, he]

theorem allOk_of_call_ok (store : Store) (oracle : Oracle)
    (r : (Value × Value × Value × Value) × Store × List Event)
    (h : optimize_hyperparameters store oracle = Except.ok r) :
    allOk store oracle = true := by
  by_contra hno
  have h1 : ¬ (∀ n ∈ models_to_optimize, isDict (mergedValue store oracle n) = true) := by
    intro hALL
    exact hno (by simpa [allOk, List.all_eq_true] using hALL)
  push_neg at h1
  obtain ⟨n, hn, hne⟩ := h1
  have hbad : isDict (mergedValue store oracle n) = false := by
    cases hA : isDict (mergedValue store oracle n)
    · rfl
    · exact absurd hA hne
  obtain ⟨e, he⟩ := call_error_of_bad store oracle n hn hbad
  rw [he] at h
  exact Except.noConfusion h

theorem bad_of_call_error (store : Store) (oracle : Oracle) (e : String)
    (h : optimize_hyperparameters store oracle = Except.error e) :
    ∃ n ∈ models_to_optimize, isDict (mergedValue store oracle n) = false := by
  by_contra hno
  push_neg at hno
  have hall : allOk store oracle = true := by
    simp only [allOk, List.all_eq_true]
    intro n hn
    cases hA : isDict (mergedValue store oracle n)
    · exact absurd hA (hno n hn)
    · rfl
  rw [call_ok_of_allOk store oracle hall] at h
  exact Except.noConfusion h

/-- C1: for every combination of per-task outcomes (success, timeout,
exception, any store), `optimize_hyperparameters` either returns a complete
4-tuple whose entry for each of `xgb`, `rf`, `stacking`, `reg_stacking` is a
non-null mapping, or raises only in the structural-defect case, i.e. only
when some model's merged per-model value is not a mapping. -/
theorem c1_complete_tuple_or_structural_error (store : Store) (oracle : Oracle) :
    (∀ x r s g st' ev,
        optimize_hyperparameters store oracle = Except.ok ((x, r, s, g), st', ev) →
        (∃ d, x = Value.dict d) ∧ (∃ d, r = Value.dict d) ∧
          (∃ d, s = Value.dict d) ∧ (∃ d, g = Value.dict d)) ∧
    (∀ e, optimize_hyperparameters store oracle = Except.error e →
        ∃ n ∈ models_to_optimize, isDict (mergedValue store oracle n) = false) := by
  constructor
  · intro x r s g st' ev hok
    have hall := allOk_of_call_ok store oracle _ hok
    have hALL : ∀ n ∈ models_to_optimize,
        isDict (mergedValue store oracle n) = true := by
      simpa [allOk, List.all_eq_true] using hall
    obtain ⟨dx, hx⟩ := (isDict_eq_true_iff _).mp
      (hALL "xgb" (by simp [models_to_optimize]))
    obtain ⟨dr, hr⟩ := (isDict_eq_true_iff _).mp
      (hALL "rf" (by simp [models_to_optimize]))
    obtain ⟨ds, hs⟩ := (isDict_eq_true_iff _).mp
      (hALL "stacking" (by simp [models_to_optimize]))
    obtain ⟨dg, hg⟩ := (isDict_eq_true_iff _).mp
      (hALL "reg_stacking" (by simp [models_to_optimize]))
    rw [call_ok_of_allOk store oracle hall, hx, hr, hs, hg] at hok
    simp only [Option.getD_some, Except.ok.injEq, Prod.mk.injEq] at hok
    obtain ⟨⟨ex, er, es, eg⟩, -, -⟩ := hok
    exact ⟨⟨dx, ex.symm⟩, ⟨dr, er.symm⟩, ⟨ds, es.symm⟩, ⟨dg, eg.symm⟩⟩
  · intro e he
    exact bad_of_call_error store oracle e he

/-- C1 witness: on an empty store with all four searches succeeding, the
returned entries are all mappings. -/
theorem c1_witness :
    (∃ d, Value.dict [("xgb", 1)] = Value.dict d) ∧
    (∃ d, Value.dict [("rf", 1)] = Value.dict d) ∧
    (∃ d, Value.dict [("stacking", 1)] = Value.dict d) ∧
    (∃ d, Value.dict [("reg_stacking", 1)] = Value.dict d) :=
  (c1_complete_tuple_or_structural_error [] successOracle).1
    (Value.dict [("xgb", 1)]) (Value.dict [("rf", 1)])
    (Value.dict [("stacking", 1)]) (Value.dict [("reg_stacking", 1)])
    [("reg_stacking", Value.dict [("reg_stacking", 1)]),
     ("stacking", Value.dict [("stacking", 1)]),
     ("rf", Value.dict [("rf", 1)]),
     ("xgb", Value.dict [("xgb", 1)])]
    [Event.searchRun "xgb", Event.searchRun "rf", Event.searchRun "stacking",
     Event.searchRun "reg_stacking",
     Event.saved "xgb" (Value.dict [("xgb", 1)]),
     Event.saved "rf" (Value.dict [("rf", 1)]),
     Event.saved "stacking" (Value.dict [("stacking", 1)]),
     Event.saved "reg_stacking" (Value.dict [("reg_stacking", 1)])]
    (by rfl)

/-- C2: evaluation of the code at the claim's scenario (empty store, every
task times out). The claim and spec say the entry degrades to the empty
mapping with a warning; the code instead raises
`ValueError("Invalid parameters for xgb.")` at the merge-loop type check,
so the fallback at optimisers.py lines 111-116 is unreachable. -/
theorem c2_timeout_no_cache_raises :
    optimize_hyperparameters [] (fun _ => SearchOutcome.timeout) =
      Except.error "Invalid parameters for xgb." := by rfl

/-- C3: if the store has a mapping for a model identifier, the orchestration
call never runs that model's search (its objective is never invoked), and
when the call returns, the tuple entry for that model equals the stored
mapping. -/
theorem c3_cache_skip (store : Store) (oracle : Oracle) (name : String)
    (d : Params) (hn : name ∈ models_to_optimize)
    (hld : load_hyperparameters store name = some (Value.dict d)) :
    Event.searchRun name ∉ searchPhaseEvents store oracle ∧
    (∀ x r s g st' ev,
        optimize_hyperparameters store oracle = Except.ok ((x, r, s, g), st', ev) →
        tupleEntry name (x, r, s, g) = some (Value.dict d)) := by
  have hc : create_study store name = false :=
    create_study_false_of_load store name _ hld
  constructor
  · intro hmem
    have := searchRun_mem_searchPhase store oracle name hmem
    rw [hc] at this
    cases this
  · intro x r s g st' ev hok
    have htb : taskBest store oracle name = some (Value.dict d) :=
      taskBest_cache store oracle name _ hld
    have hmv : mergedValue store oracle name = some (Value.dict d) := by
      simp [mergedValue, mergeVal, htb]
    have hall := allOk_of_call_ok store oracle _ hok
    rw [call_ok_of_allOk store oracle hall] at hok
    simp only [Except.ok.injEq, Prod.mk.injEq] at hok
    obtain ⟨⟨ex, er, es, eg⟩, -, -⟩ := hok
    simp only [models_to_optimize, List.mem_cons, List.not_mem_nil, or_false] at hn
    rcases hn with rfl | rfl | rfl | rfl
    · simp [tupleEntry, ← ex, hmv]
    · simp [tupleEntry, ← er, hmv]
    · simp [tupleEntry, ← es, hmv]
    · simp [tupleEntry, ← eg, hmv]

/-- C3 witness: with `xgb` cached, no `xgb` search runs and the returned
`xgb` entry is the stored mapping. -/
theorem c3_witness :
    Event.searchRun "xgb" ∉
      searchPhaseEvents [("xgb", Value.dict [("a", 5)])] successOracle ∧
    tupleEntry "xgb"
      (Value.dict [("a", 5)], Value.dict [("rf", 1)],
       Value.dict [("stacking", 1)], Value.dict [("reg_stacking", 1)]) =
      some (Value.dict [("a", 5)]) :=
  ⟨(c3_cache_skip [("xgb", Value.dict [("a", 5)])] successOracle "xgb" [("a", 5)]
      (by simp [models_to_optimize]) (by rfl)).1,
   (c3_cache_skip [("xgb", Value.dict [("a", 5)])] successOracle "xgb" [("a", 5)]
      (by simp [models_to_optimize]) (by rfl)).2
     (Value.dict [("a", 5)]) (Value.dict [("rf", 1)])
     (Value.dict [("stacking", 1)]) (Value.dict [("reg_stacking", 1)])
     [("reg_stacking", Value.dict [("reg_stacking", 1)]),
      ("stacking", Value.dict [("stacking", 1)]),
      ("rf", Value.dict [("rf", 1)]),
      ("xgb", Value.dict [("a", 5)])]
     [Event.searchRun "rf", Event.searchRun "stacking", Event.searchRun "reg_stacking",
      Event.saved "xgb" (Value.dict [("a", 5)]),
      Event.saved "rf" (Value.dict [("rf", 1)]),
      Event.saved "stacking" (Value.dict [("stacking", 1)]),
      Event.saved "reg_stacking" (Value.dict [("reg_stacking", 1)])]
     (by rfl)⟩

/-- C4: on a model with no cached record, `optimize_model` returns
`(name, best_params)` when the search succeeds, and `(name, None)` with an
error logged when the search times out or raises any other exception; no
exception from the search escapes. -/
theorem c4_optimize_model_outcomes (store : Store) (oracle : Oracle)
    (name : String) (h : load_hyperparameters store name = none) :
    (∀ v, oracle name = SearchOutcome.success v →
        optimize_model store oracle name =
          ((name, some v), [Event.searchRun name])) ∧
    (oracle name = SearchOutcome.timeout →
        optimize_model store oracle name =
          ((name, none),
           [Event.searchRun name,
            Event.logError ("Optimization for " ++ name ++ " timed out")])) ∧
    (∀ msg, oracle name = SearchOutcome.failure msg →
        optimize_model store oracle name =
          ((name, none),
           [Event.searchRun name,
            Event.logError (name ++ " generated an exception: " ++ msg)])) := by
  have hc : create_study store name = true := by simp [create_study, h]
  refine ⟨?_, ?_, ?_⟩
  · intro v hv
    simp [optimize_model, hc, hv]
  · intro hv
    simp [optimize_model, hc, hv]
  · intro msg hv
    simp [optimize_model, hc, hv]

/-- C4 witness: on the empty store, a successful `xgb` search returns the
pair with its best parameters. -/
theorem c4_witness :
    load_hyperparameters ([] : Store) "xgb" = none ∧
    optimize_model [] successOracle "xgb" =
      (("xgb", some (Value.dict [("xgb", 1)])), [Event.searchRun "xgb"]) :=
  ⟨by rfl,
   (c4_optimize_model_outcomes [] successOracle "xgb" (by rfl)).1
     (Value.dict [("xgb", 1)]) (by rfl)⟩

/-- C5: every task result that is a non-null dict is accepted and persisted
via `save_hyperparameters` (the save call appears in the trace and the final
store holds it); concretely, from the empty store with all four searches
succeeding, one call leaves four records matching the returned tuple. -/
theorem c5_success_persisted :
    (∀ (store : Store) (oracle : Oracle) (name : String) (d : Params),
        name ∈ models_to_optimize →
        taskBest store oracle name = some (Value.dict d) →
        ∀ t st' ev,
          optimize_hyperparameters store oracle = Except.ok (t, st', ev) →
          Event.saved name (Value.dict d) ∈ ev ∧
            load_hyperparameters st' name = some (Value.dict d)) ∧
    (optimize_hyperparameters [] successOracle =
        Except.ok
          ((Value.dict [("xgb", 1)], Value.dict [("rf", 1)],
            Value.dict [("stacking", 1)], Value.dict [("reg_stacking", 1)]),
           [("reg_stacking", Value.dict [("reg_stacking", 1)]),
            ("stacking", Value.dict [("stacking", 1)]),
            ("rf", Value.dict [("rf", 1)]),
            ("xgb", Value.dict [("xgb", 1)])],
           [Event.searchRun "xgb", Event.searchRun "rf", Event.searchRun "stacking",
            Event.searchRun "reg_stacking",
            Event.saved "xgb" (Value.dict [("xgb", 1)]),
            Event.saved "rf" (Value.dict [("rf", 1)]),
            Event.saved "stacking" (Value.dict [("stacking", 1)]),
            Event.saved "reg_stacking" (Value.dict [("reg_stacking", 1)])]) ∧
      ([("reg_stacking", Value.dict [("reg_stacking", 1)]),
        ("stacking", Value.dict [("stacking", 1)]),
        ("rf", Value.dict [("rf", 1)]),
        ("xgb", Value.dict [("xgb", 1)])] : Store).length = 4 ∧
      load_hyperparameters
        [("reg_stacking", Value.dict [("reg_stacking", 1)]),
         ("stacking", Value.dict [("stacking", 1)]),
         ("rf", Value.dict [("rf", 1)]),
         ("xgb", Value.dict [("xgb", 1)])] "xgb" = some (Value.dict [("xgb", 1)]) ∧
      load_hyperparameters
        [("reg_stacking", Value.dict [("reg_stacking", 1)]),
         ("stacking", Value.dict [("stacking", 1)]),
         ("rf", Value.dict [("rf", 1)]),
         ("xgb", Value.dict [("xgb", 1)])] "rf" = some (Value.dict [("rf", 1)]) ∧
      load_hyperparameters
        [("reg_stacking", Value.dict [("reg_stacking", 1)]),
         ("stacking", Value.dict [("stacking", 1)]),
         ("rf", Value.dict [("rf", 1)]),
         ("xgb", Value.dict [("xgb", 1)])] "stacking" =
        some (Value.dict [("stacking", 1)]) ∧
      load_hyperparameters
        [("reg_stacking", Value.dict [("reg_stacking", 1)]),
         ("stacking", Value.dict [("stacking", 1)]),
         ("rf", Value.dict [("rf", 1)]),
         ("xgb", Value.dict [("xgb", 1)])] "reg_stacking" =
        some (Value.dict [("reg_stacking", 1)])) := by
  constructor
  · intro store oracle name d hn htb t st' ev hok
    have hall := allOk_of_call_ok store oracle _ hok
    rw [call_ok_of_allOk store oracle hall] at hok
    simp only [Except.ok.injEq, Prod.mk.injEq] at hok
    obtain ⟨-, hS, hE⟩ := hok
    constructor
    · rw [← hE]
      exact List.mem_append_right _ (saved_mem_savedEvents store oracle name d hn htb)
    · rw [← hS]
      have hnd : models_to_optimize.Nodup := by decide
      have := load_foldl_applySave_mem (taskBest store oracle) models_to_optimize
        store name hnd hn
      rw [show storeAfterMerge store oracle =
          models_to_optimize.foldl
            (fun s m => applySave s m (taskBest store oracle m)) store from rfl,
        this, htb]
      rfl
  · exact ⟨by rfl, by rfl, by rfl, by rfl, by rfl, by rfl⟩

/-- C5 witness: instance of the persistence property for the `xgb` task on
the empty store with all searches succeeding. -/
theorem c5_witness :
    ("xgb" ∈ models_to_optimize ∧
      taskBest [] successOracle "xgb" = some (Value.dict [("xgb", 1)])) ∧
    (Event.saved "xgb" (Value.dict [("xgb", 1)]) ∈
        [Event.searchRun "xgb", Event.searchRun "rf", Event.searchRun "stacking",
         Event.searchRun "reg_stacking",
         Event.saved "xgb" (Value.dict [("xgb", 1)]),
         Event.saved "rf" (Value.dict [("rf", 1)]),
         Event.saved "stacking" (Value.dict [("stacking", 1)]),
         Event.saved "reg_stacking" (Value.dict [("reg_stacking", 1)])] ∧
      load_hyperparameters
        [("reg_stacking", Value.dict [("reg_stacking", 1)]),
         ("stacking", Value.dict [("stacking", 1)]),
         ("rf", Value.dict [("rf", 1)]),
         ("xgb", Value.dict [("xgb", 1)])] "xgb" = some (Value.dict [("xgb", 1)])) :=
  ⟨⟨by simp [models_to_optimize], by rfl⟩,
   c5_success_persisted.1 [] successOracle "xgb" [("xgb", 1)]
     (by simp [models_to_optimize]) (by rfl)
     (Value.dict [("xgb", 1)], Value.dict [("rf", 1)],
      Value.dict [("stacking", 1)], Value.dict [("reg_stacking", 1)])
     [("reg_stacking", Value.dict [("reg_stacking", 1)]),
      ("stacking", Value.dict [("stacking", 1)]),
      ("rf", Value.dict [("rf", 1)]),
      ("xgb", Value.dict [("xgb", 1)])]
     [Event.searchRun "xgb", Event.searchRun "rf", Event.searchRun "stacking",
      Event.searchRun "reg_stacking",
      Event.saved "xgb" (Value.dict [("xgb", 1)]),
      Event.saved "rf" (Value.dict [("rf", 1)]),
      Event.saved "stacking" (Value.dict [("stacking", 1)]),
      Event.saved "reg_stacking" (Value.dict [("reg_stacking", 1)])]
     (by rfl)⟩

/-- C6: a non-mapping merged per-model value makes the call raise a
structural error, and this is the only per-model condition that aborts the
whole call (every raised error exhibits some non-mapping merged value). -/
theorem c6_structural_error_iff (store : Store) (oracle : Oracle) :
    (∀ n ∈ models_to_optimize, isDict (mergedValue store oracle n) = false →
        ∃ e, optimize_hyperparameters store oracle = Except.error e) ∧
    (∀ e, optimize_hyperparameters store oracle = Except.error e →
        ∃ n ∈ models_to_optimize, isDict (mergedValue store oracle n) = false) :=
  ⟨fun n hn hbad => call_error_of_bad store oracle n hn hbad,
   fun e he => bad_of_call_error store oracle e he⟩

/-- C6 witness: a corrupted store holding a string for `xgb` makes the call
fail with a structural error. -/
theorem c6_witness :
    ("xgb" ∈ models_to_optimize ∧
      isDict (mergedValue [("xgb", Value.str "oops")]
        (fun _ => SearchOutcome.timeout) "xgb") = false) ∧
    (∃ e, optimize_hyperparameters [("xgb", Value.str "oops")]
        (fun _ => SearchOutcome.timeout) = Except.error e) :=
  ⟨⟨by simp [models_to_optimize], by rfl⟩,
   (c6_structural_error_iff [("xgb", Value.str "oops")]
      (fun _ => SearchOutcome.timeout)).1 "xgb"
     (by simp [models_to_optimize]) (by rfl)⟩

/-- C7: with a store already holding a mapping for each of the four model
identifiers and unchanged objectives, two successive orchestration calls
return the identical tuple of the four stored mappings, and neither call
invokes any objective function (the search phase produces no events). -/
theorem c7_idempotent_cache_skip (store : Store) (oracle : Oracle)
    (d1 d2 d3 d4 : Params)
    (h1 : load_hyperparameters store "xgb" = some (Value.dict d1))
    (h2 : load_hyperparameters store "rf" = some (Value.dict d2))
    (h3 : load_hyperparameters store "stacking" = some (Value.dict d3))
    (h4 : load_hyperparameters store "reg_stacking" = some (Value.dict d4)) :
    ∃ st1 ev1 st2 ev2,
      optimize_hyperparameters store oracle =
        Except.ok ((Value.dict d1, Value.dict d2, Value.dict d3, Value.dict d4),
          st1, ev1) ∧
      optimize_hyperparameters st1 oracle =
        Except.ok ((Value.dict d1, Value.dict d2, Value.dict d3, Value.dict d4),
          st2, ev2) ∧
      searchPhaseEvents store oracle = [] ∧
      searchPhaseEvents st1 oracle = [] := by
  have key : ∀ (s : Store),
      load_hyperparameters s "xgb" = some (Value.dict d1) →
      load_hyperparameters s "rf" = some (Value.dict d2) →
      load_hyperparameters s "stacking" = some (Value.dict d3) →
      load_hyperparameters s "reg_stacking" = some (Value.dict d4) →
      optimize_hyperparameters s oracle =
        Except.ok ((Value.dict d1, Value.dict d2, Value.dict d3, Value.dict d4),
          storeAfterMerge s oracle,
          searchPhaseEvents s oracle ++ savedEvents s oracle) ∧
      searchPhaseEvents s oracle = [] ∧
      (∀ n ∈ models_to_optimize, ∀ dn : Params,
        load_hyperparameters s n = some (Value.dict dn) →
        load_hyperparameters (storeAfterMerge s oracle) n = some (Value.dict dn)) := by
    intro s g1 g2 g3 g4
    have t1 := taskBest_cache s oracle "xgb" _ g1
    have t2 := taskBest_cache s oracle "rf" _ g2
    have t3 := taskBest_cache s oracle "stacking" _ g3
    have t4 := taskBest_cache s oracle "reg_stacking" _ g4
    have m1 : mergedValue s oracle "xgb" = some (Value.dict d1) := by
      simp [mergedValue, mergeVal, t1]
    have m2 : mergedValue s oracle "rf" = some (Value.dict d2) := by
      simp [mergedValue, mergeVal, t2]
    have m3 : mergedValue s oracle "stacking" = some (Value.dict d3) := by
      simp [mergedValue, mergeVal, t3]
    have m4 : mergedValue s oracle "reg_stacking" = some (Value.dict d4) := by
      simp [mergedValue, mergeVal, t4]
    have hall : allOk s oracle = true := by
      simp [allOk, models_to_optimize, m1, m2, m3, m4, isDict]
    refine ⟨?_, ?_, ?_⟩
    · have hcall := call_ok_of_allOk s oracle hall
      rw [m1, m2, m3, m4] at hcall
      simpa only [Option.getD_some] using hcall
    · refine searchPhase_nil s oracle ?_
      intro n hn
      simp only [models_to_optimize, List.mem_cons, List.not_mem_nil, or_false] at hn
      rcases hn with rfl | rfl | rfl | rfl
      · exact create_study_false_of_load s "xgb" _ g1
      · exact create_study_false_of_load s "rf" _ g2
      · exact create_study_false_of_load s "stacking" _ g3
      · exact create_study_false_of_load s "reg_stacking" _ g4
    · intro n hn dn gdn
      have hnd : models_to_optimize.Nodup := by decide
      have hl := load_foldl_applySave_mem (taskBest s oracle) models_to_optimize
        s n hnd hn
      have htn : taskBest s oracle n = some (Value.dict dn) :=
        taskBest_cache s oracle n _ gdn
      rw [show storeAfterMerge s oracle =
          models_to_optimize.foldl
            (fun st m => applySave st m (taskBest s oracle m)) s from rfl,
        hl, htn]
      rfl
  obtain ⟨hcall1, hsp1, hpres1⟩ := key store h1 h2 h3 h4
  have h1' := hpres1 "xgb" (by simp [models_to_optimize]) d1 h1
  have h2' := hpres1 "rf" (by simp [models_to_optimize]) d2 h2
  have h3' := hpres1 "stacking" (by simp [models_to_optimize]) d3 h3
  have h4' := hpres1 "reg_stacking" (by simp [models_to_optimize]) d4 h4
  obtain ⟨hcall2, hsp2, -⟩ := key (storeAfterMerge store oracle) h1' h2' h3' h4'
  exact ⟨storeAfterMerge store oracle,
    searchPhaseEvents store oracle ++ savedEvents store oracle,
    storeAfterMerge (storeAfterMerge store oracle) oracle,
    searchPhaseEvents (storeAfterMerge store oracle) oracle ++
      savedEvents (storeAfterMerge store oracle) oracle,
    hcall1, hcall2, hsp1, hsp2⟩

/-- C7 witness: a fully populated store yields the stored tuple twice with no
search invocations, even when every search would time out. -/
theorem c7_witness :
    (load_hyperparameters
        [("xgb", Value.dict [("a", 1)]), ("rf", Value.dict [("b", 2)]),
         ("stacking", Value.dict [("c", 3)]),
         ("reg_stacking", Value.dict [("d", 4)])] "xgb" =
      some (Value.dict [("a", 1)])) ∧
    ∃ st1 ev1 st2 ev2,
      optimize_hyperparameters
          [("xgb", Value.dict [("a", 1)]), ("rf", Value.dict [("b", 2)]),
           ("stacking", Value.dict [("c", 3)]),
           ("reg_stacking", Value.dict [("d", 4)])]
          (fun _ => SearchOutcome.timeout) =
        Except.ok ((Value.dict [("a", 1)], Value.dict [("b", 2)],
          Value.dict [("c", 3)], Value.dict [("d", 4)]), st1, ev1) ∧
      optimize_hyperparameters st1 (fun _ => SearchOutcome.timeout) =
        Except.ok ((Value.dict [("a", 1)], Value.dict [("b", 2)],
          Value.dict [("c", 3)], Value.dict [("d", 4)]), st2, ev2) ∧
      searchPhaseEvents
          [("xgb", Value.dict [("a", 1)]), ("rf", Value.dict [("b", 2)]),
           ("stacking", Value.dict [("c", 3)]),
           ("reg_stacking", Value.dict [("d", 4)])]
          (fun _ => SearchOutcome.timeout) = [] ∧
      searchPhaseEvents st1 (fun _ => SearchOutcome.timeout) = [] :=
  ⟨by rfl,
   c7_idempotent_cache_skip
     [("xgb", Value.dict [("a", 1)]), ("rf", Value.dict [("b", 2)]),
      ("stacking", Value.dict [("c", 3)]), ("reg_stacking", Value.dict [("d", 4)])]
     (fun _ => SearchOutcome.timeout)
     [("a", 1)] [("b", 2)] [("c", 3)] [("d", 4)]
     (by rfl) (by rfl) (by rfl) (by rfl)⟩

/-- C8: the task results are collected in submission order (their name
components are exactly `xgb, rf, stacking, reg_stacking` in order), each
result is merged under its own model identifier, and the returned tuple is in
that fixed order: each component equals that model's merged value. -/
theorem c8_submission_order (store : Store) (oracle : Oracle) :
    (searchResults store oracle).map Prod.fst = models_to_optimize ∧
    (∀ x r s g st' ev,
        optimize_hyperparameters store oracle = Except.ok ((x, r, s, g), st', ev) →
        some x = mergedValue store oracle "xgb" ∧
        some r = mergedValue store oracle "rf" ∧
        some s = mergedValue store oracle "stacking" ∧
        some g = mergedValue store oracle "reg_stacking") := by
  constructor
  · rw [searchResults_eq]
    simp [models_to_optimize]
  · intro x r s g st' ev hok
    have hall := allOk_of_call_ok store oracle _ hok
    have hALL : ∀ n ∈ models_to_optimize,
        isDict (mergedValue store oracle n) = true := by
      simpa [allOk, List.all_eq_true] using hall
    obtain ⟨dx, hx⟩ := (isDict_eq_true_iff _).mp
      (hALL "xgb" (by simp [models_to_optimize]))
    obtain ⟨dr, hr⟩ := (isDict_eq_true_iff _).mp
      (hALL "rf" (by simp [models_to_optimize]))
    obtain ⟨ds, hs⟩ := (isDict_eq_true_iff _).mp
      (hALL "stacking" (by simp [models_to_optimize]))
    obtain ⟨dg, hg⟩ := (isDict_eq_true_iff _).mp
      (hALL "reg_stacking" (by simp [models_to_optimize]))
    rw [call_ok_of_allOk store oracle hall, hx, hr, hs, hg] at hok
    simp only [Option.getD_some, Except.ok.injEq, Prod.mk.injEq] at hok
    obtain ⟨⟨ex, er, es, eg⟩, -, -⟩ := hok
    rw [hx, hr, hs, hg, ← ex, ← er, ← es, ← eg]
    exact ⟨rfl, rfl, rfl, rfl⟩

/-- C8 witness: on the empty store with all searches succeeding, the returned
components are the four models' merged values in the fixed order. -/
theorem c8_witness :
    some (Value.dict [("xgb", 1)]) = mergedValue [] successOracle "xgb" ∧
    some (Value.dict [("rf", 1)]) = mergedValue [] successOracle "rf" ∧
    some (Value.dict [("stacking", 1)]) = mergedValue [] successOracle "stacking" ∧
    some (Value.dict [("reg_stacking", 1)]) =
      mergedValue [] successOracle "reg_stacking" :=
  (c8_submission_order [] successOracle).2
    (Value.dict [("xgb", 1)]) (Value.dict [("rf", 1)])
    (Value.dict [("stacking", 1)]) (Value.dict [("reg_stacking", 1)])
    [("reg_stacking", Value.dict [("reg_stacking", 1)]),
     ("stacking", Value.dict [("stacking", 1)]),
     ("rf", Value.dict [("rf", 1)]),
     ("xgb", Value.dict [("xgb", 1)])]
    [Event.searchRun "xgb", Event.searchRun "rf", Event.searchRun "stacking",
     Event.searchRun "reg_stacking",
     Event.saved "xgb" (Value.dict [("xgb", 1)]),
     Event.saved "rf" (Value.dict [("rf", 1)]),
     Event.saved "stacking" (Value.dict [("stacking", 1)]),
     Event.saved "reg_stacking" (Value.dict [("reg_stacking", 1)])]
    (by rfl)

/-- C9: a user interrupt during the base optimizer's search is caught and
treated as a clean early stop: the interruption is logged and the best
parameters found so far are returned, with no error propagated. -/
theorem c9_interrupt_clean_stop (study : BaseStudy)
    (h : study.interrupted = true) :
    (optimize_hyperparameters_base study).1 = study.best_params ∧
    Event.logInfo "Optimization interrupted by user." ∈
      (optimize_hyperparameters_base study).2 := by
  simp [optimize_hyperparameters_base, h]

/-- C9 witness: an interrupted study returns its best-so-far parameters and
logs the interruption. -/
theorem c9_witness :
    (BaseStudy.mk true 3 7 [("lr", 2)]).interrupted = true ∧
    ((optimize_hyperparameters_base (BaseStudy.mk true 3 7 [("lr", 2)])).1 =
        [("lr", 2)] ∧
      Event.logInfo "Optimization interrupted by user." ∈
        (optimize_hyperparameters_base (BaseStudy.mk true 3 7 [("lr", 2)])).2) :=
  ⟨rfl, c9_interrupt_clean_stop (BaseStudy.mk true 3 7 [("lr", 2)]) rfl⟩

/-- C10: on the cache-hit path (a stored dict exists, so no search runs), the
merge loop still calls `save_hyperparameters` with the loaded dict: the save
appears in the trace of every call that returns. -/
theorem c10_cache_hit_still_saves (store : Store) (oracle : Oracle)
    (name : String) (d : Params) (hn : name ∈ models_to_optimize)
    (hld : load_hyperparameters store name = some (Value.dict d)) :
    Event.searchRun name ∉ searchPhaseEvents store oracle ∧
    (∀ t st' ev,
        optimize_hyperparameters store oracle = Except.ok (t, st', ev) →
        Event.saved name (Value.dict d) ∈ ev) := by
  have hc : create_study store name = false :=
    create_study_false_of_load store name _ hld
  have htb : taskBest store oracle name = some (Value.dict d) :=
    taskBest_cache store oracle name _ hld
  constructor
  · intro hmem
    have := searchRun_mem_searchPhase store oracle name hmem
    rw [hc] at this
    cases this
  · intro t st' ev hok
    have hall := allOk_of_call_ok store oracle _ hok
    rw [call_ok_of_allOk store oracle hall] at hok
    simp only [Except.ok.injEq, Prod.mk.injEq] at hok
    obtain ⟨-, -, hE⟩ := hok
    rw [← hE]
    exact List.mem_append_right _ (saved_mem_savedEvents store oracle name d hn htb)

/-- C10 witness: a pure cache-skip call (all four models cached, all searches
would time out) still records a save of the loaded `xgb` mapping. -/
theorem c10_witness :
    ("xgb" ∈ models_to_optimize ∧
      load_hyperparameters
        [("xgb", Value.dict [("a", 1)]), ("rf", Value.dict [("b", 2)]),
         ("stacking", Value.dict [("c", 3)]),
         ("reg_stacking", Value.dict [("d", 4)])] "xgb" =
        some (Value.dict [("a", 1)])) ∧
    Event.saved "xgb" (Value.dict [("a", 1)]) ∈
      [Event.saved "xgb" (Value.dict [("a", 1)]),
       Event.saved "rf" (Value.dict [("b", 2)]),
       Event.saved "stacking" (Value.dict [("c", 3)]),
       Event.saved "reg_stacking" (Value.dict [("d", 4)])] :=
  ⟨⟨by simp [models_to_optimize], by rfl⟩,
   (c10_cache_hit_still_saves
      [("xgb", Value.dict [("a", 1)]), ("rf", Value.dict [("b", 2)]),
       ("stacking", Value.dict [("c", 3)]), ("reg_stacking", Value.dict [("d", 4)])]
      (fun _ => SearchOutcome.timeout) "xgb" [("a", 1)]
      (by simp [models_to_optimize]) (by rfl)).2
     (Value.dict [("a", 1)], Value.dict [("b", 2)],
      Value.dict [("c", 3)], Value.dict [("d", 4)])
     [("reg_stacking", Value.dict [("d", 4)]),
      ("stacking", Value.dict [("c", 3)]),
      ("rf", Value.dict [("b", 2)]),
      ("xgb", Value.dict [("a", 1)])]
     [Event.saved "xgb" (Value.dict [("a", 1)]),
      Event.saved "rf" (Value.dict [("b", 2)]),
      Event.saved "stacking" (Value.dict [("c", 3)]),
      Event.saved "reg_stacking" (Value.dict [("d", 4)])]
     (by rfl)⟩
